import Mathlib

/-!
Shallow embedding of the Libby import core
(`src/services/LibbyImportService.ts`): the record normalizer
(`parseJsonFile` / `formatLibbyData` / `getHighlightColor`) and the document
renderer (`generateMarkdown` / `groupEventsByDate`).

Modelling conventions:
* JS numbers used as epoch-millisecond timestamps are `Int`; fractional
  percent values are `ℚ`; `Math.round` is `jsRound`.
* Absent (`undefined`) JSON fields are `Option`; the `x || []` defaulting in
  the source is `Option.getD _ []`.
* `Date.prototype.toLocaleDateString('en-US', …)` is an environment call
  (local-timezone dependent); it is abstracted as a `fmtDate : Int → String`
  parameter of the renderer.
* `Array.prototype.sort` with comparator `(a, b) => a.timestamp - b.timestamp`
  is a stable sort ascending by timestamp (ES2019 requires sort stability);
  it is embedded as the stable insertion sort `sortEvents`, which produces
  the sorted permutation that preserves the relative order of
  timestamp-tied elements — extensionally the unique behaviour any
  conforming engine exhibits for this comparator.
* The glyph string literals of the source file are reproduced code point for
  code point (the file stores them in a Windows-1252-mojibake form; see
  `getHighlightColor`).
* A JS statement that can throw `TypeError` by dereferencing `undefined`
  (the renderer's `book.circulation[0].library.text`) is embedded as an
  `Option`-returning function that is `none` exactly on the crashing inputs.
-/

namespace Libby

/-- `{ text: string }` wrapper used by `readingJourney.title`. -/
structure TitleRef where
  text : String
  deriving DecidableEq, Repr

/-- `{ format: string }` sub-object `readingJourney.cover`. -/
structure CoverRef where
  format : String
  deriving DecidableEq, Repr

/-- `{ text: string }` wrapper used by `circulation[i].library`. -/
structure LibraryRef where
  text : String
  deriving DecidableEq, Repr

/-- Raw `readingJourney` section of a Libby export
(`title.text`, `author`, `publisher`, `isbn`, `percent`, `cover.format`). -/
structure RawJourney where
  title : TitleRef
  author : String
  publisher : String
  isbn : String
  percent : ℚ
  cover : CoverRef
  deriving DecidableEq, Repr

/-- Raw entry of the `bookmarks` list: `{chapter, timestamp, percent}`. -/
structure RawBookmark where
  chapter : String
  timestamp : Int
  percent : ℚ
  deriving DecidableEq, Repr

/-- Raw entry of the `highlights` list:
`{quote, timestamp, percent, chapter, color}` (`color` may be absent). -/
structure RawHighlight where
  quote : String
  timestamp : Int
  percent : ℚ
  chapter : String
  color : Option String
  deriving DecidableEq, Repr

/-- Raw entry of the `circulation` list:
`{timestamp, activity, details?, library: {text}}`. -/
structure RawCirculation where
  timestamp : Int
  activity : String
  details : Option String
  library : LibraryRef
  deriving DecidableEq, Repr

/-- The parsed top-level JSON object. `readingJourney`, `circulation`,
`bookmarks` and `highlights` are `Option` because the source checks/defaults
their absence. -/
structure LibbyData where
  version : Int
  readingJourney : Option RawJourney
  circulation : Option (List RawCirculation)
  bookmarks : Option (List RawBookmark)
  highlights : Option (List RawHighlight)
  deriving DecidableEq, Repr

/-- The `type` discriminant of `LibbyEvent` (`'Highlight' | 'Bookmark'`). -/
inductive EventType where
  | Highlight
  | Bookmark
  deriving DecidableEq, Repr

/-- Interface `LibbyEvent` of the source. -/
structure LibbyEvent where
  type : EventType
  text : String
  timestamp : Int
  percent : ℚ
  chapter : String
  color : Option String
  quote : Option String
  deriving DecidableEq, Repr

/-- Interface `LibbyBook` of the source (the canonical BookRecord). -/
structure LibbyBook where
  title : String
  author : String
  publisher : String
  isbn : String
  percent : ℚ
  format : String
  events : List LibbyEvent
  circulation : List RawCirculation
  deriving DecidableEq, Repr

/-- `getHighlightColor`: the switch on the raw color code. The returned
strings are exactly the literal code points stored in the source file
(a Windows-1252 mojibake of the emoji 🟨, 💚, 💗): for example the first is
U+00F0 U+0178 U+0178 U+00A8. An absent color (`undefined` argument in JS)
falls through to `default`. -/
def getHighlightColor (color : Option String) : String :=
  if color = some "#FFB" then "\u00F0\u0178\u0178\u00A8"
  else if color = some "#DFC" then "\u00F0\u0178\u2019\u0161"
  else if color = some "#FFE0EC" then "\u00F0\u0178\u2019\u2014"
  else "\u00F0\u0178\u0178\u00A8"

/-- The bookmark-to-event mapping of `formatLibbyData` (the first `.map`). -/
def mapBookmark (b : RawBookmark) : LibbyEvent :=
  { type := EventType.Bookmark
    text := b.chapter
    timestamp := b.timestamp
    percent := b.percent
    chapter := b.chapter
    color := none
    quote := none }

/-- The highlight-to-event mapping of `formatLibbyData` (the second `.map`). -/
def mapHighlight (h : RawHighlight) : LibbyEvent :=
  { type := EventType.Highlight
    text := h.quote
    timestamp := h.timestamp
    percent := h.percent
    chapter := h.chapter
    color := some (getHighlightColor h.color)
    quote := some h.quote }

/-- One step of the stable sort: insert `e` before the first element whose
timestamp is `≥ e.timestamp` has failed, i.e. before the first strictly
later element, keeping `e` after earlier-or-tied elements already placed
behind it by `sortEvents`. -/
def insertEvent (e : LibbyEvent) : List LibbyEvent → List LibbyEvent
  | [] => [e]
  | x :: xs =>
    if e.timestamp ≤ x.timestamp then e :: x :: xs
    else x :: insertEvent e xs

/-- Stable sort ascending by `timestamp`: the embedding of
`[...bookmarkEvents, ...highlightEvents].sort((a, b) => a.timestamp - b.timestamp)`. -/
def sortEvents : List LibbyEvent → List LibbyEvent
  | [] => []
  | e :: l => insertEvent e (sortEvents l)

/-- `formatLibbyData`. The source dereferences `data.readingJourney.…` and
copies `data.circulation`; it is only ever called after `parseJsonFile`
checked both sections, so the embedding returns `none` when either is
absent (where the JS would throw `TypeError`). -/
def formatLibbyData (data : LibbyData) : Option LibbyBook :=
  match data.readingJourney, data.circulation with
  | some journey, some circ =>
    let bookmarkEvents := (data.bookmarks.getD []).map mapBookmark
    let highlightEvents := (data.highlights.getD []).map mapHighlight
    let events := sortEvents (bookmarkEvents ++ highlightEvents)
    some
      { title := journey.title.text
        author := journey.author
        publisher := journey.publisher
        isbn := journey.isbn
        percent := journey.percent * 100
        format := journey.cover.format
        events := events
        circulation := circ }
  | _, _ => none

/-- Error message of the structural check in `parseJsonFile`. -/
def notLibbyFileMsg : String :=
  "The file you have uploaded doesn't look like a Libby data file and could not be imported."

/-- Error message thrown when the user cancels at the version advisory. -/
def importCancelledMsg : String := "Import cancelled"

/-- `parseJsonFile` after JSON decoding. The interactive version advisory is
modelled by the `proceed` flag: when `data.version > 1` the user is asked,
and `proceed = false` means they chose Cancel (the JS throws
`'Import cancelled'`). -/
def parseJsonFile (proceed : Bool) (data : LibbyData) : Except String LibbyBook :=
  if data.readingJourney.isNone || data.circulation.isNone then
    Except.error notLibbyFileMsg
  else if 1 < data.version && !proceed then
    Except.error importCancelledMsg
  else
    match formatLibbyData data with
    | some book => Except.ok book
    | none => Except.error notLibbyFileMsg

/-- `Math.round`: round half toward positive infinity. -/
def jsRound (q : ℚ) : Int := ⌊q + 1 / 2⌋

/-- The per-event `progress` string of `generateMarkdown`:
`` `(${Math.round(event.percent * 100)}%)` ``. -/
def eventProgress (e : LibbyEvent) : String :=
  "(" ++ toString (jsRound (e.percent * 100)) ++ "%)"

/-- One bullet line of the Reading Timeline (the body of the
`events.forEach`). The bookmark glyph is the literal code points of the
source (mojibake of 🔖); `undefined` interpolations print `"undefined"`,
as JS template literals do. -/
def eventLine (e : LibbyEvent) : String :=
  if e.type = EventType.Bookmark then
    "- **Bookmark \u00F0\u0178\u201D\u2013** Chapter " ++ e.text ++ " "
      ++ eventProgress e ++ "\n"
  else
    "- **Highlight** " ++ (e.color.getD "undefined") ++ " \""
      ++ (e.quote.getD "undefined") ++ "\" " ++ eventProgress e ++ "\n"

/-- `groupEventsByDate`'s insertion into the accumulator: the JS
`grouped[date].push(event)` on a plain object whose keys (long-form en-US
dates, never array indices) enumerate in insertion order under
`Object.entries`. -/
def insertGrouped (key : String) (e : LibbyEvent) :
    List (String × List LibbyEvent) → List (String × List LibbyEvent)
  | [] => [(key, [e])]
  | (k, es) :: rest =>
    if k = key then (k, es ++ [e]) :: rest
    else (k, es) :: insertGrouped key e rest

/-- `groupEventsByDate`, parametrised by the date rendering `fmtDate`
(the `toLocaleDateString('en-US', …)` environment call). -/
def groupEventsByDate (fmtDate : Int → String) (events : List LibbyEvent) :
    List (String × List LibbyEvent) :=
  events.foldl (fun acc e => insertGrouped (fmtDate e.timestamp) e acc) []

/-- Title and author lines of `generateMarkdown`. -/
def headerSection (book : LibbyBook) : String :=
  "# " ++ book.title ++ "\n" ++ ("by " ++ book.author ++ "\n\n")

/-- The `## Book Details` block, one string append per `markdown +=`. -/
def bookDetails (book : LibbyBook) : String :=
  "## Book Details\n"
    ++ ("- Publisher: " ++ book.publisher ++ "\n")
    ++ ("- ISBN: " ++ book.isbn ++ "\n")
    ++ ("- Progress: " ++ toString (jsRound book.percent) ++ "%\n")
    ++ ("- Format: " ++ book.format ++ "\n\n")

/-- The `## Reading Timeline` block: one `###` heading plus its event lines
per group produced by `groupEventsByDate`. -/
def timelineSection (fmtDate : Int → String) (events : List LibbyEvent) : String :=
  "## Reading Timeline\n\n"
    ++ String.join ((groupEventsByDate fmtDate events).map fun g =>
        "### " ++ g.1 ++ "\n" ++ String.join (g.2.map eventLine) ++ "\n")

/-- One numbered line of `## Circulation History`; `idx` is the 0-based
`forEach` index. The detail suffix reproduces the JS truthiness test
`event.details ? … : ''` (an empty string is falsy). -/
def circulationLine (fmtDate : Int → String) (idx : Nat) (c : RawCirculation) :
    String :=
  let details :=
    match c.details with
    | some d => if d = "" then "" else " (" ++ d.trim ++ ")"
    | none => ""
  toString (idx + 1) ++ ". " ++ fmtDate c.timestamp ++ " - "
    ++ c.activity ++ details ++ "\n"

/-- The `## Circulation History` block. -/
def circulationSection (fmtDate : Int → String) (circ : List RawCirculation) :
    String :=
  "## Circulation History\n"
    ++ String.join (circ.enum.map fun p => circulationLine fmtDate p.1 p.2)
    ++ "\n"

/-- `generateMarkdown`. The final attribution line dereferences
`book.circulation[0].library.text`; on an empty circulation list the JS
throws `TypeError`, embedded as `none`. -/
def generateMarkdown (fmtDate : Int → String) (book : LibbyBook) :
    Option String :=
  match book.circulation with
  | [] => none
  | c0 :: _ =>
    some (headerSection book
      ++ bookDetails book
      ++ timelineSection fmtDate book.events
      ++ circulationSection fmtDate book.circulation
      ++ ("*Borrowed from " ++ c0.library.text ++ "*\n"))

/-! ### Lemmas about the stable sort -/

theorem mem_insertEvent (a e : LibbyEvent) (l : List LibbyEvent) :
    a ∈ insertEvent e l ↔ a = e ∨ a ∈ l := by
  induction l with
  | nil => simp [insertEvent]
  | cons x xs ih =>
    simp only [insertEvent]
    split
    · simp [List.mem_cons]
    · simp only [List.mem_cons, ih]
      tauto

theorem insertEvent_perm (e : LibbyEvent) (l : List LibbyEvent) :
    (insertEvent e l).Perm (e :: l) := by
  induction l with
  | nil => exact List.Perm.refl _
  | cons x xs ih =>
    simp only [insertEvent]
    split
    · exact List.Perm.refl _
    · exact (List.Perm.cons x ih).trans (List.Perm.swap e x xs)

theorem sortEvents_perm (l : List LibbyEvent) : (sortEvents l).Perm l := by
  induction l with
  | nil => exact List.Perm.refl _
  | cons e l ih =>
    exact (insertEvent_perm e (sortEvents l)).trans (List.Perm.cons e ih)

theorem insertEvent_sorted {e : LibbyEvent} {l : List LibbyEvent}
    (h : l.Pairwise fun a b => a.timestamp ≤ b.timestamp) :
    (insertEvent e l).Pairwise fun a b => a.timestamp ≤ b.timestamp := by
  induction l with
  | nil => simp [insertEvent]
  | cons x xs ih =>
    rcases List.pairwise_cons.mp h with ⟨hx, hxs⟩
    simp only [insertEvent]
    split
    · rename_i hle
      refine List.pairwise_cons.mpr ⟨?_, h⟩
      intro b hb
      rcases List.mem_cons.mp hb with rfl | hb
      · exact hle
      · exact le_trans hle (hx b hb)
    · rename_i hgt
      push_neg at hgt
      refine List.pairwise_cons.mpr ⟨?_, ih hxs⟩
      intro b hb
      rcases (mem_insertEvent b e xs).mp hb with rfl | hb
      · exact le_of_lt hgt
      · exact hx b hb

theorem sortEvents_sorted (l : List LibbyEvent) :
    (sortEvents l).Pairwise fun a b => a.timestamp ≤ b.timestamp := by
  induction l with
  | nil => simp [sortEvents]
  | cons e l ih => exact insertEvent_sorted ih

/-- Stability transfer: any relation `Q` that already holds pairwise on the
input, and that holds automatically across a strict timestamp increase, is
preserved by one insertion step. -/
theorem insertEvent_pairwise {Q : LibbyEvent → LibbyEvent → Prop}
    (hlt : ∀ a b, a.timestamp < b.timestamp → Q a b)
    {e : LibbyEvent} {l : List LibbyEvent}
    (h : (e :: l).Pairwise Q) :
    (insertEvent e l).Pairwise Q := by
  induction l with
  | nil => simp [insertEvent]
  | cons x xs ih =>
    rcases List.pairwise_cons.mp h with ⟨he, hxl⟩
    rcases List.pairwise_cons.mp hxl with ⟨hx, hxs⟩
    simp only [insertEvent]
    split
    · exact List.pairwise_cons.mpr ⟨he, hxl⟩
    · rename_i hgt
      push_neg at hgt
      refine List.pairwise_cons.mpr ⟨?_, ih ?_⟩
      · intro b hb
        rcases (mem_insertEvent b e xs).mp hb with rfl | hb
        · exact hlt x b hgt
        · exact hx b hb
      · exact List.pairwise_cons.mpr
          ⟨fun b hb => he b (List.mem_cons_of_mem x hb), hxs⟩

/-- Stability transfer for the whole sort. -/
theorem sortEvents_pairwise {Q : LibbyEvent → LibbyEvent → Prop}
    (hlt : ∀ a b, a.timestamp < b.timestamp → Q a b)
    {l : List LibbyEvent} (h : l.Pairwise Q) :
    (sortEvents l).Pairwise Q := by
  induction l with
  | nil => simp [sortEvents]
  | cons e l ih =>
    rcases List.pairwise_cons.mp h with ⟨he, hl⟩
    refine insertEvent_pairwise hlt (List.pairwise_cons.mpr ⟨?_, ih hl⟩)
    intro b hb
    exact he b ((sortEvents_perm l).mem_iff.mp hb)

/-! ### Characterisation of the normalizer -/

theorem formatLibbyData_eq {data : LibbyData} {journey : RawJourney}
    {circ : List RawCirculation}
    (hj : data.readingJourney = some journey)
    (hc : data.circulation = some circ) :
    formatLibbyData data = some
      { title := journey.title.text
        author := journey.author
        publisher := journey.publisher
        isbn := journey.isbn
        percent := journey.percent * 100
        format := journey.cover.format
        events := sortEvents ((data.bookmarks.getD []).map mapBookmark
          ++ (data.highlights.getD []).map mapHighlight)
        circulation := circ } := by
  unfold formatLibbyData
  rw [hj, hc]

theorem formatLibbyData_none_left {data : LibbyData}
    (hj : data.readingJourney = none) : formatLibbyData data = none := by
  unfold formatLibbyData
  rw [hj]

theorem formatLibbyData_none_right {data : LibbyData}
    (hc : data.circulation = none) : formatLibbyData data = none := by
  unfold formatLibbyData
  rw [hc]
  rcases data.readingJourney with _ | j <;> rfl

theorem parseJsonFile_ok {proceed : Bool} {data : LibbyData} {book : LibbyBook}
    (h : parseJsonFile proceed data = Except.ok book) :
    formatLibbyData data = some book := by
  unfold parseJsonFile at h
  split at h
  · exact absurd h (by simp)
  · split at h
    · exact absurd h (by simp)
    · revert h
      split
      · rename_i b hb
        intro h
        simp only [Except.ok.injEq] at h
        rw [hb, h]
      · intro h
        exact absurd h (by simp)

/-- A successful parse pins the whole record down. -/
theorem parseJsonFile_ok_book {proceed : Bool} {data : LibbyData}
    {book : LibbyBook} (h : parseJsonFile proceed data = Except.ok book) :
    ∃ journey circ,
      data.readingJourney = some journey ∧ data.circulation = some circ ∧
      book =
        { title := journey.title.text
          author := journey.author
          publisher := journey.publisher
          isbn := journey.isbn
          percent := journey.percent * 100
          format := journey.cover.format
          events := sortEvents ((data.bookmarks.getD []).map mapBookmark
            ++ (data.highlights.getD []).map mapHighlight)
          circulation := circ } := by
  have hf := parseJsonFile_ok h
  rcases hj : data.readingJourney with _ | journey
  · rw [formatLibbyData_none_left hj] at hf
    cases hf
  · rcases hc : data.circulation with _ | circ
    · rw [formatLibbyData_none_right hc] at hf
      cases hf
    · refine ⟨journey, circ, rfl, rfl, ?_⟩
      rw [formatLibbyData_eq hj hc] at hf
      simp only [Option.some.injEq] at hf
      exact hf.symm

/-! ### Concrete inputs used by the witnesses -/

instance {ε α : Type} [DecidableEq ε] [DecidableEq α] :
    DecidableEq (Except ε α) := fun a b =>
  match a, b with
  | Except.ok x, Except.ok y =>
    if h : x = y then isTrue (by rw [h])
    else isFalse (fun hh => h (by injection hh))
  | Except.error x, Except.error y =>
    if h : x = y then isTrue (by rw [h])
    else isFalse (fun hh => h (by injection hh))
  | Except.ok _, Except.error _ => isFalse (fun hh => by injection hh)
  | Except.error _, Except.ok _ => isFalse (fun hh => by injection hh)

def sampleJourney : RawJourney :=
  { title := ⟨"Sample Book"⟩
    author := "A. Author"
    publisher := "Pub House"
    isbn := "9780000000000"
    percent := 42 / 100
    cover := ⟨"ebook"⟩ }

def sampleCircEntry : RawCirculation :=
  { timestamp := 1700000000000
    activity := "Borrowed"
    details := none
    library := ⟨"City Library"⟩ }

def sampleBookmark : RawBookmark :=
  { chapter := "3", timestamp := 1000, percent := 1 / 10 }

def sampleHighlight : RawHighlight :=
  { quote := "a quote", timestamp := 1000, percent := 1 / 5, chapter := "3",
    color := some "#DFC" }

def sampleData : LibbyData :=
  { version := 1
    readingJourney := some sampleJourney
    circulation := some [sampleCircEntry]
    bookmarks := some [sampleBookmark]
    highlights := some [sampleHighlight] }

/-- The record `parseJsonFile` produces from `sampleData` (the tied-timestamp
bookmark stays ahead of the highlight). -/
def sampleBook : LibbyBook :=
  { title := "Sample Book"
    author := "A. Author"
    publisher := "Pub House"
    isbn := "9780000000000"
    percent := 42
    format := "ebook"
    events := [mapBookmark sampleBookmark, mapHighlight sampleHighlight]
    circulation := [sampleCircEntry] }

/-- Concrete evaluation of the normalizer on `sampleData`. -/
theorem parse_sampleData :
    parseJsonFile true sampleData = Except.ok sampleBook := by
  have h := @formatLibbyData_eq sampleData sampleJourney [sampleCircEntry]
    rfl rfl
  unfold parseJsonFile
  rw [h]
  norm_num [sampleData, sampleBook, sampleJourney, sampleBookmark,
    sampleHighlight, sortEvents, insertEvent, mapBookmark, mapHighlight]

/-! ### The claims -/

/-- C1: for every raw input accepted by `parseJsonFile`/`formatLibbyData`,
the `events` timeline of the resulting record — mapped bookmarks and mapped
highlights concatenated, then sorted by the timestamp comparator — is
sorted non-decreasing by timestamp. -/
theorem normalize_timeline_sorted (proceed : Bool) (data : LibbyData)
    (book : LibbyBook) (h : parseJsonFile proceed data = Except.ok book) :
    book.events.Pairwise fun a b => a.timestamp ≤ b.timestamp := by
  obtain ⟨journey, circ, hj, hc, rfl⟩ := parseJsonFile_ok_book h
  exact sortEvents_sorted _

theorem normalize_timeline_sorted_witness :
    parseJsonFile true sampleData = Except.ok sampleBook ∧
    sampleBook.events.Pairwise (fun a b => a.timestamp ≤ b.timestamp) :=
  ⟨parse_sampleData,
   normalize_timeline_sorted true sampleData sampleBook parse_sampleData⟩

/-- C2: in the timeline of any record produced by an accepted raw input,
whenever a bookmark and a highlight carry identical timestamps the bookmark
comes first — no highlight ever precedes an equal-timestamp bookmark. -/
theorem normalize_timeline_tiebreak (proceed : Bool) (data : LibbyData)
    (book : LibbyBook) (h : parseJsonFile proceed data = Except.ok book) :
    book.events.Pairwise fun a b =>
      a.timestamp = b.timestamp →
        ¬(a.type = EventType.Highlight ∧ b.type = EventType.Bookmark) := by
  obtain ⟨journey, circ, hj, hc, rfl⟩ := parseJsonFile_ok_book h
  apply sortEvents_pairwise
  · intro a b hlt heq
    omega
  · have hbm : ∀ a ∈ (data.bookmarks.getD []).map mapBookmark,
        a.type = EventType.Bookmark := by
      intro a ha
      rcases List.mem_map.mp ha with ⟨r, _, rfl⟩
      rfl
    have hhl : ∀ a ∈ (data.highlights.getD []).map mapHighlight,
        a.type = EventType.Highlight := by
      intro a ha
      rcases List.mem_map.mp ha with ⟨r, _, rfl⟩
      rfl
    refine List.pairwise_append.mpr ⟨?_, ?_, ?_⟩
    · refine List.pairwise_of_forall_mem_list ?_
      intro a ha b hb heq hcon
      have h1 := hcon.1
      rw [hbm a ha] at h1
      exact absurd h1 (by decide)
    · refine List.pairwise_of_forall_mem_list ?_
      intro a ha b hb heq hcon
      have h2 := hcon.2
      rw [hhl b hb] at h2
      exact absurd h2 (by decide)
    · intro a ha b hb heq hcon
      have h1 := hcon.1
      rw [hbm a ha] at h1
      exact absurd h1 (by decide)

theorem normalize_timeline_tiebreak_witness :
    parseJsonFile true sampleData = Except.ok sampleBook ∧
    sampleBook.events.Pairwise (fun a b =>
      a.timestamp = b.timestamp →
        ¬(a.type = EventType.Highlight ∧ b.type = EventType.Bookmark)) :=
  ⟨parse_sampleData,
   normalize_timeline_tiebreak true sampleData sampleBook parse_sampleData⟩

/-- C3: `getHighlightColor` is total and exact — the three known raw codes
`'#FFB'`, `'#DFC'`, `'#FFE0EC'` map to their three designated, pairwise
distinct symbols, and any other input `c` (including an absent color) maps
to the default symbol, which is the symbol of the first known code. -/
theorem highlight_color_total_exact (c : Option String)
    (h1 : c ≠ some "#FFB") (h2 : c ≠ some "#DFC")
    (h3 : c ≠ some "#FFE0EC") :
    getHighlightColor (some "#FFB") = "ðŸŸ¨" ∧
    getHighlightColor (some "#DFC") = "ðŸ’š" ∧
    getHighlightColor (some "#FFE0EC") = "ðŸ’—" ∧
    getHighlightColor (some "#FFB") ≠ getHighlightColor (some "#DFC") ∧
    getHighlightColor (some "#FFB") ≠ getHighlightColor (some "#FFE0EC") ∧
    getHighlightColor (some "#DFC") ≠ getHighlightColor (some "#FFE0EC") ∧
    getHighlightColor c = "ðŸŸ¨" ∧
    getHighlightColor none = getHighlightColor (some "#FFB") := by
  refine ⟨by decide, by decide, by decide, by decide, by decide, by decide,
    ?_, by decide⟩
  simp [getHighlightColor, h1, h2, h3]

theorem highlight_color_total_exact_witness :
    (some "#000" : Option String) ≠ some "#FFB" ∧
    getHighlightColor (some "#000") = "ðŸŸ¨" :=
  ⟨by decide,
   (highlight_color_total_exact (some "#000") (by decide) (by decide)
     (by decide)).2.2.2.2.2.2.1⟩

/-- C6: the structural check raises the "not a recognized export"
`SchemaError` exactly when the raw input lacks `readingJourney` or lacks
`circulation`; with both sections present that error is never produced. -/
theorem parse_schema_error_iff (proceed : Bool) (data : LibbyData) :
    parseJsonFile proceed data = Except.error notLibbyFileMsg ↔
      data.readingJourney = none ∨ data.circulation = none := by
  rcases hj : data.readingJourney with _ | journey
  · simp [parseJsonFile, hj]
  · rcases hc : data.circulation with _ | circ
    · simp [parseJsonFile, hj, hc]
    · constructor
      · intro h
        exfalso
        unfold parseJsonFile at h
        rw [hj, hc] at h
        simp only [Option.isNone_some, Bool.or_self, Bool.false_eq_true,
          if_false] at h
        split at h
        · rw [Except.error.injEq] at h
          exact absurd h (by decide)
        · rw [formatLibbyData_eq hj hc] at h
          cases h
      · rintro (h | h) <;> cases h

theorem parse_schema_error_iff_witness :
    parseJsonFile true
        { version := 1, readingJourney := none,
          circulation := some [sampleCircEntry],
          bookmarks := none, highlights := none }
      = Except.error notLibbyFileMsg :=
  (parse_schema_error_iff true _).mpr (Or.inl rfl)

/-- C9: version noninterference — `formatLibbyData` never reads the
`version` field, so two raw inputs identical except for carrying version 1
versus version 2 produce identical records when the caller proceeds past
the advisory. -/
theorem version_noninterference (data : LibbyData) (v : Int) :
    formatLibbyData { data with version := v } = formatLibbyData data ∧
    parseJsonFile true { data with version := 2 } =
      parseJsonFile true { data with version := 1 } := by
  constructor
  · rfl
  · unfold parseJsonFile
    rfl

/-- With both sections present and the caller proceeding, the parse always
succeeds with the fully determined record. -/
theorem parseJsonFile_proceed_ok {data : LibbyData} {journey : RawJourney}
    {circ : List RawCirculation}
    (hj : data.readingJourney = some journey)
    (hc : data.circulation = some circ) :
    parseJsonFile true data = Except.ok
      { title := journey.title.text
        author := journey.author
        publisher := journey.publisher
        isbn := journey.isbn
        percent := journey.percent * 100
        format := journey.cover.format
        events := sortEvents ((data.bookmarks.getD []).map mapBookmark
          ++ (data.highlights.getD []).map mapHighlight)
        circulation := circ } := by
  simp [parseJsonFile, hj, hc, formatLibbyData_eq hj hc]

/-- Raw input with both sections present but an empty circulation list. -/
def emptyCircData : LibbyData :=
  { version := 1
    readingJourney := some sampleJourney
    circulation := some []
    bookmarks := none
    highlights := none }

/-- The record `parseJsonFile` actually returns for `emptyCircData`. -/
def emptyCircBook : LibbyBook :=
  { title := "Sample Book"
    author := "A. Author"
    publisher := "Pub House"
    isbn := "9780000000000"
    percent := 42
    format := "ebook"
    events := []
    circulation := [] }

/-- C4 (code-bug evidence): on a raw input whose `readingJourney` and
`circulation` sections are both present but whose circulation list is
empty, `parseJsonFile` raises no `SchemaError` at all — in JS an empty
array is truthy, so the `!data.circulation` test passes — and instead
returns a record with an empty circulation sequence, on which the
renderer's unconditional `circulation[0].library.text` dereference then
crashes (embedded: `generateMarkdown` is `none`). -/
theorem parse_empty_circulation_no_error :
    parseJsonFile true emptyCircData = Except.ok emptyCircBook ∧
    ∀ fmtDate : Int → String, generateMarkdown fmtDate emptyCircBook = none := by
  constructor
  · have h := @parseJsonFile_proceed_ok emptyCircData sampleJourney []
      rfl rfl
    rw [h]
    norm_num [emptyCircBook, sampleJourney, sortEvents]
  · intro fmtDate
    rfl

/-- C5: on any record satisfying the circulation invariant (at least one
entry), `generateMarkdown` is total — every list access it performs,
including the attribution line's dereference of the first circulation
entry's library text, is in bounds, and a document is produced. -/
theorem render_total (fmtDate : Int → String) (book : LibbyBook)
    (h : book.circulation ≠ []) :
    ∃ text, generateMarkdown fmtDate book = some text := by
  unfold generateMarkdown
  rcases hc : book.circulation with _ | ⟨c0, rest⟩
  · exact absurd hc h
  · exact ⟨_, rfl⟩

theorem render_total_witness :
    sampleBook.circulation ≠ [] ∧
    ∃ text, generateMarkdown (fun _ => "November 14, 2023") sampleBook
      = some text :=
  ⟨by decide,
   render_total (fun _ => "November 14, 2023") sampleBook (by decide)⟩

/-- Raw input with both sections but neither a `bookmarks` nor a
`highlights` list. -/
def noListsData : LibbyData :=
  { version := 1
    readingJourney := some sampleJourney
    circulation := some [sampleCircEntry]
    bookmarks := none
    highlights := none }

/-- C10 (implicit): with both required sections present, absent `bookmarks`
and/or `highlights` lists do not make the parse fail — `(data.bookmarks || [])`
and `(data.highlights || [])` treat each absent list as empty, the timeline
holds exactly (as a permutation; it is then sorted) the events mapped from
whichever lists are present, and an input with neither list yields an empty
timeline. -/
theorem normalize_missing_lists (data : LibbyData)
    (journey : RawJourney) (circ : List RawCirculation)
    (hj : data.readingJourney = some journey)
    (hc : data.circulation = some circ) :
    ∃ book, parseJsonFile true data = Except.ok book ∧
      book.events.Perm ((data.bookmarks.getD []).map mapBookmark
        ++ (data.highlights.getD []).map mapHighlight) ∧
      (data.bookmarks = none → data.highlights = none → book.events = []) := by
  refine ⟨_, parseJsonFile_proceed_ok hj hc, ?_, ?_⟩
  · exact sortEvents_perm _
  · intro hb hh
    rw [hb, hh]
    rfl

theorem normalize_missing_lists_witness :
    ∃ book, parseJsonFile true noListsData = Except.ok book ∧
      book.events.Perm ((noListsData.bookmarks.getD []).map mapBookmark
        ++ (noListsData.highlights.getD []).map mapHighlight) ∧
      (noListsData.bookmarks = none → noListsData.highlights = none →
        book.events = []) :=
  normalize_missing_lists noListsData sampleJourney [sampleCircEntry] rfl rfl

/-- Concrete evaluation of `formatLibbyData` on `sampleData`. -/
theorem formatLibbyData_sampleData :
    formatLibbyData sampleData = some sampleBook :=
  parseJsonFile_ok parse_sampleData

/-- The rendered document always carries the Book Details progress line
computed as `Math.round(book.percent)` on the record's (pre-scaled)
percent. -/
theorem generateMarkdown_progress_infix (fmtDate : Int → String)
    (book : LibbyBook) (h : book.circulation ≠ []) :
    ∃ pre post, generateMarkdown fmtDate book
      = some (pre ++ (("- Progress: " ++ toString (jsRound book.percent)
          ++ "%\n") ++ post)) := by
  obtain ⟨c0, rest, hc⟩ := List.exists_cons_of_ne_nil h
  refine ⟨"# " ++ book.title ++ "\n" ++ ("by " ++ book.author ++ "\n\n")
      ++ ("## Book Details\n" ++ ("- Publisher: " ++ book.publisher ++ "\n")
        ++ ("- ISBN: " ++ book.isbn ++ "\n")),
    ("- Format: " ++ book.format ++ "\n\n")
      ++ (timelineSection fmtDate book.events
        ++ (circulationSection fmtDate book.circulation
          ++ ("*Borrowed from " ++ c0.library.text ++ "*\n"))), ?_⟩
  unfold generateMarkdown
  rw [hc]
  simp [headerSection, bookDetails, String.append_assoc]

/-- C7: percent scaling and rounding — the normalizer pre-scales the overall
percent (`overallPercent = rawPercent × 100`), the Book Details line shows
`round(overallPercent)` with a percent sign, while every mapped timeline
event keeps its raw fraction and the renderer computes its displayed
percent as `round(percent × 100)`: the ×100 scaling happens once in the
normalizer for the overall percent and once in the renderer for per-event
percents. -/
theorem percent_scaling (data : LibbyData) (journey : RawJourney)
    (circ : List RawCirculation) (book : LibbyBook) (fmtDate : Int → String)
    (hj : data.readingJourney = some journey)
    (hc : data.circulation = some circ)
    (hb : formatLibbyData data = some book)
    (hn : circ ≠ []) :
    book.percent = journey.percent * 100 ∧
    (∀ bm ∈ data.bookmarks.getD [], (mapBookmark bm).percent = bm.percent) ∧
    (∀ hl ∈ data.highlights.getD [], (mapHighlight hl).percent = hl.percent) ∧
    (∀ e : LibbyEvent, ∃ pre post,
      eventLine e = pre ++ (toString (jsRound (e.percent * 100)) ++ post)) ∧
    (∃ pre post, generateMarkdown fmtDate book
      = some (pre ++ (("- Progress: "
          ++ toString (jsRound (journey.percent * 100)) ++ "%\n") ++ post))) := by
  rw [formatLibbyData_eq hj hc] at hb
  simp only [Option.some.injEq] at hb
  subst hb
  refine ⟨rfl, fun bm _ => rfl, fun hl _ => rfl, ?_, ?_⟩
  · intro e
    by_cases he : e.type = EventType.Bookmark
    · refine ⟨"- **Bookmark ðŸ”–** Chapter "
        ++ e.text ++ " " ++ "(", "%)" ++ "\n", ?_⟩
      unfold eventLine
      rw [if_pos he]
      unfold eventProgress
      simp only [String.append_assoc]
    · refine ⟨"- **Highlight** " ++ e.color.getD "undefined" ++ " \""
        ++ e.quote.getD "undefined" ++ "\" " ++ "(", "%)" ++ "\n", ?_⟩
      unfold eventLine
      rw [if_neg he]
      unfold eventProgress
      simp only [String.append_assoc]
  · exact generateMarkdown_progress_infix fmtDate _ hn

theorem percent_scaling_witness :
    formatLibbyData sampleData = some sampleBook ∧
    ([sampleCircEntry] : List RawCirculation) ≠ [] ∧
    (sampleBook.percent = sampleJourney.percent * 100 ∧
     (∀ bm ∈ sampleData.bookmarks.getD [], (mapBookmark bm).percent = bm.percent) ∧
     (∀ hl ∈ sampleData.highlights.getD [], (mapHighlight hl).percent = hl.percent) ∧
     (∀ e : LibbyEvent, ∃ pre post,
        eventLine e = pre ++ (toString (jsRound (e.percent * 100)) ++ post)) ∧
     (∃ pre post, generateMarkdown (fun _ => "November 14, 2023") sampleBook
        = some (pre ++ (("- Progress: "
            ++ toString (jsRound (sampleJourney.percent * 100)) ++ "%\n") ++ post)))) :=
  ⟨formatLibbyData_sampleData, by decide,
   percent_scaling sampleData sampleJourney [sampleCircEntry] sampleBook
     (fun _ => "November 14, 2023") rfl rfl formatLibbyData_sampleData
     (by decide)⟩

/-- The round-trip of the spec's scenario: a raw fraction `0.42` is scaled
to `42` and rounds to the integer `42`, so the Progress line prints `42%`. -/
theorem jsRound_sample : toString (jsRound (sampleJourney.percent * 100)) = "42" := by
  have h : jsRound (sampleJourney.percent * 100) = 42 := by
    unfold jsRound sampleJourney
    norm_num
  rw [h]
  rfl

/-! ### Date grouping -/

/-- Spec-side description of the heading order: the distinct date keys in
order of first occurrence while walking the timeline. -/
def firstSeen : List String → List String
  | [] => []
  | k :: ks => k :: (firstSeen ks).filter (fun x => decide (x ≠ k))

theorem mem_firstSeen (x : String) (l : List String) :
    x ∈ firstSeen l ↔ x ∈ l := by
  induction l with
  | nil => simp [firstSeen]
  | cons k ks ih =>
    simp only [firstSeen, List.mem_cons, List.mem_filter, ih,
      decide_eq_true_eq]
    constructor
    · rintro (rfl | ⟨h, _⟩)
      · exact Or.inl rfl
      · exact Or.inr h
    · rintro (rfl | h)
      · exact Or.inl rfl
      · by_cases hx : x = k
        · exact Or.inl hx
        · exact Or.inr ⟨h, hx⟩

theorem firstSeen_nodup (l : List String) : (firstSeen l).Nodup := by
  induction l with
  | nil => simp [firstSeen]
  | cons k ks ih =>
    simp only [firstSeen]
    refine List.nodup_cons.mpr ⟨?_, List.Nodup.filter _ ih⟩
    intro hmem
    rcases List.mem_filter.mp hmem with ⟨_, hk⟩
    simp at hk

theorem firstSeen_append_singleton (l : List String) (k : String) :
    firstSeen (l ++ [k]) =
      if k ∈ l then firstSeen l else firstSeen l ++ [k] := by
  induction l with
  | nil => simp [firstSeen]
  | cons a l ih =>
    rw [List.cons_append, firstSeen, ih]
    by_cases hmem : k ∈ l
    · rw [if_pos hmem, if_pos (List.mem_cons_of_mem a hmem), firstSeen]
    · by_cases hak : k = a
      · subst hak
        rw [if_neg hmem, if_pos (List.mem_cons_self k l), firstSeen,
          List.filter_append]
        simp
      · have h1 : k ∉ a :: l := by
          intro hc
          rcases List.mem_cons.mp hc with h | h
          · exact hak h
          · exact hmem h
        rw [if_neg hmem, if_neg h1, firstSeen, List.filter_append]
        simp [hak]

theorem insertGrouped_not_mem (key : String) (e : LibbyEvent)
    (ks : List String) (g : String → List LibbyEvent) (h : key ∉ ks) :
    insertGrouped key e (ks.map fun k => (k, g k))
      = ks.map (fun k => (k, g k)) ++ [(key, [e])] := by
  induction ks with
  | nil => rfl
  | cons a ks ih =>
    have h1 : a ≠ key := fun hc => h (hc ▸ List.mem_cons_self a ks)
    have h2 : key ∉ ks := fun hc => h (List.mem_cons_of_mem a hc)
    simp only [List.map_cons, insertGrouped, if_neg h1, ih h2,
      List.cons_append]

theorem insertGrouped_mem (key : String) (e : LibbyEvent)
    (ks : List String) (g : String → List LibbyEvent)
    (hnd : ks.Nodup) (h : key ∈ ks) :
    insertGrouped key e (ks.map fun k => (k, g k))
      = ks.map (fun k => (k, if k = key then g k ++ [e] else g k)) := by
  induction ks with
  | nil => cases h
  | cons a ks ih =>
    rcases List.nodup_cons.mp hnd with ⟨ha, hnd2⟩
    by_cases hak : a = key
    · subst hak
      simp only [List.map_cons, insertGrouped, if_true]
      congr 1
      apply List.map_congr_left
      intro k hk
      have hka : ¬k = a := fun hc => ha (hc ▸ hk)
      rw [if_neg hka]
    · have h2 : key ∈ ks := by
        rcases List.mem_cons.mp h with hh | hh
        · exact absurd hh.symm hak
        · exact hh
      simp only [List.map_cons, insertGrouped, if_neg hak, ih hnd2 h2]

/-- One `forEach` step of `groupEventsByDate`, expressed on the closed
form: insert event `e` into an accumulator that groups `processed`. -/
theorem insertGrouped_closed (fmtDate : Int → String)
    (processed : List LibbyEvent) (e : LibbyEvent) :
    insertGrouped (fmtDate e.timestamp) e
      ((firstSeen (processed.map fun x => fmtDate x.timestamp)).map
        (fun k => (k, processed.filter fun x => decide (fmtDate x.timestamp = k))))
    = (firstSeen ((processed ++ [e]).map fun x => fmtDate x.timestamp)).map
        (fun k => (k, (processed ++ [e]).filter
          fun x => decide (fmtDate x.timestamp = k))) := by
  simp only [List.map_append, List.map_cons, List.map_nil,
    List.filter_append, firstSeen_append_singleton]
  by_cases hmem : fmtDate e.timestamp ∈ processed.map fun x => fmtDate x.timestamp
  · rw [if_pos hmem]
    rw [insertGrouped_mem _ e _ _ (firstSeen_nodup _)
      ((mem_firstSeen _ _).mpr hmem)]
    apply List.map_congr_left
    intro k hk
    by_cases hkk : k = fmtDate e.timestamp
    · subst hkk
      simp [List.filter]
    · simp only [List.filter, if_neg hkk]
      have : decide (fmtDate e.timestamp = k) = false := by
        simp
        exact fun hc => hkk hc.symm
      simp [this]
  · rw [if_neg hmem]
    rw [List.map_append]
    rw [insertGrouped_not_mem _ e _ _
      (fun hc => hmem ((mem_firstSeen _ _).mp hc))]
    congr 1
    · apply List.map_congr_left
      intro k hk
      have hk2 : k ∈ processed.map fun x => fmtDate x.timestamp :=
        (mem_firstSeen _ _).mp hk
      have hkk : decide (fmtDate e.timestamp = k) = false := by
        simp
        exact fun hc => hmem (hc ▸ hk2)
      simp [List.filter, hkk]
    · have hfil : processed.filter
          (fun x => decide (fmtDate x.timestamp = fmtDate e.timestamp)) = [] := by
        rw [List.filter_eq_nil_iff]
        intro a ha
        simp only [decide_eq_true_eq]
        intro hc
        exact hmem (hc ▸ List.mem_map_of_mem _ ha)
      simp [List.filter, hfil]

theorem groupEventsByDate_closed (fmtDate : Int → String)
    (es : List LibbyEvent) : ∀ processed : List LibbyEvent,
    es.foldl (fun acc e => insertGrouped (fmtDate e.timestamp) e acc)
      ((firstSeen (processed.map fun x => fmtDate x.timestamp)).map
        (fun k => (k, processed.filter fun x => decide (fmtDate x.timestamp = k))))
    = (firstSeen ((processed ++ es).map fun x => fmtDate x.timestamp)).map
        (fun k => (k, (processed ++ es).filter
          fun x => decide (fmtDate x.timestamp = k))) := by
  induction es with
  | nil => intro processed; simp
  | cons e es ih =>
    intro processed
    rw [List.foldl_cons, insertGrouped_closed, ih (processed ++ [e])]
    simp [List.append_assoc]

/-- C8: every date key labels exactly one group (the keys, read off in
order, are the distinct dates in order of first encounter along the
timeline, hence pairwise distinct), each group holds exactly the events of
its date in timeline order, and the rendered Reading Timeline consists of
one `###` heading per such group in that order. -/
theorem group_events_by_date_spec (fmtDate : Int → String)
    (events : List LibbyEvent) :
    groupEventsByDate fmtDate events
      = (firstSeen (events.map fun e => fmtDate e.timestamp)).map
          (fun k => (k, events.filter fun e => decide (fmtDate e.timestamp = k))) ∧
    ((groupEventsByDate fmtDate events).map Prod.fst).Nodup ∧
    timelineSection fmtDate events
      = "## Reading Timeline\n\n"
        ++ String.join ((firstSeen (events.map fun e => fmtDate e.timestamp)).map
            (fun k => "### " ++ k ++ "\n"
              ++ String.join ((events.filter fun e =>
                    decide (fmtDate e.timestamp = k)).map eventLine) ++ "\n")) := by
  have hmain : groupEventsByDate fmtDate events
      = (firstSeen (events.map fun e => fmtDate e.timestamp)).map
          (fun k => (k, events.filter fun e => decide (fmtDate e.timestamp = k))) := by
    have h := groupEventsByDate_closed fmtDate events []
    simpa [groupEventsByDate, firstSeen] using h
  refine ⟨hmain, ?_, ?_⟩
  · rw [hmain, List.map_map]
    have : (Prod.fst ∘ fun k => (k, events.filter
        fun e => decide (fmtDate e.timestamp = k))) = id := rfl
    rw [this, List.map_id]
    exact firstSeen_nodup _
  · unfold timelineSection
    rw [hmain, List.map_map]
    rfl

end Libby
